import Mathlib

/-!
Verification of the per-tick arena simulation engine of ants.py.

The engine state is a roster of players, a pool of food pellets and one
feeder, all registered in a brute-force collision manager.  One call of
Main.__update performs, in order: the physics/position update of the
feeder, the rostered players and the food (Player.update also drains
0.3 * dt life), the pairwise collision scan, the consequence rules for
each reported pair, the death evaluation and roster pruning, and the
food respawn.  Movement is driven separately by MoveAI.step, which calls
the per-player strategy module and applies a normalized step of fixed
speed 1.5.

Numbers are modelled by rationals (reals for the MoveAI normalization,
which divides by a square root).  Randomness (random.randrange in
__rand_position) is modelled by an oracle argument supplying one raw
draw per entity id.  Entities are identified by a numeric id standing
for Python object identity; the collision manager and the rosters hold
ids, the entity list holds the mutable state.
-/

namespace Ants

/-- Entity kinds: the Player, Food and Feeder subclasses of CircleEntity. -/
inductive EKind
  | player
  | food
  | feeder
deriving DecidableEq

/-- One CircleEntity: sprite position, collision-shape center (cshape,
kept in sync with the position only by the update method), a fixed
radius, and the life value. -/
structure Entity where
  id : Nat
  kind : EKind
  pos : ℚ × ℚ
  cshape : ℚ × ℚ
  radius : ℚ
  life : ℚ
deriving DecidableEq

/-- Main.WIDTH, the arena width. -/
def WIDTH : ℤ := 800

/-- Main.HEIGHT, the arena height. -/
def HEIGHT : ℤ := 800

/-- math.fabs on rationals. -/
def fabs (x : ℚ) : ℚ := if x < 0 then -x else x

/-- Lookup of the entity carrying a given id (Python object identity). -/
def getEnt : List Entity → Nat → Option Entity
  | [], _ => none
  | e :: es, i => if e.id = i then some e else getEnt es i

/-- Assignment obj.life = l for the object with id i. -/
def setLife (es : List Entity) (i : Nat) (l : ℚ) : List Entity :=
  es.map fun e => if e.id = i then { e with life := l } else e

/-- CircleEntity.update: sync the collision shape center to the sprite position. -/
def baseUpdate (e : Entity) : Entity := { e with cshape := e.pos }

/-- Player.update: sync the collision shape and drain 0.3 * dt life. -/
def playerUpdate (dt : ℚ) (e : Entity) : Entity :=
  { e with cshape := e.pos, life := e.life - 0.3 * dt }

/-- Per-entity effect of the three update loops at the start of
Main.__update: the feeder, every rostered player, and every food get
their update method called (sequential loops over disjoint objects,
fused into one pass). -/
def updEnt (dt : ℚ) (roster foods : List Nat) (fid : Nat) (e : Entity) : Entity :=
  let e1 := if e.id = fid then baseUpdate e else e
  let e2 := if e.id ∈ roster then playerUpdate dt e1 else e1
  if e.id ∈ foods then baseUpdate e2 else e2

/-- The update phase of Main.__update (lines 156-162). -/
def updatePhase (dt : ℚ) (roster foods : List Nat) (fid : Nat) (es : List Entity) : List Entity :=
  es.map (updEnt dt roster foods fid)

/-- Circle overlap test of the collision manager: the distance between
the shape centers is strictly below the sum of the radii (stated on
squares to stay in ℚ). -/
def overlaps (a b : Entity) : Prop :=
  (a.cshape.1 - b.cshape.1) ^ 2 + (a.cshape.2 - b.cshape.2) ^ 2 < (a.radius + b.radius) ^ 2

instance overlapsDec (a b : Entity) : Decidable (overlaps a b) := by
  unfold overlaps
  infer_instance

/-- CollisionManagerBruteForce.iter_all_collisions: every unordered pair
of distinct registered objects whose shapes overlap, each reported once,
in registration order. -/
def collisionPairs : List Entity → List (Nat × Nat)
  | [] => []
  | e :: rest =>
      (rest.filter fun f => decide (overlaps e f)).map (fun f => (e.id, f.id))
        ++ collisionPairs rest

/-- Consequence rules of Main.__update (lines 165-179) for one reported
pair (c1, c2): the Player-Player drain, the Food-Player and Player-Food
consumption, and the Feeder-Player gain; any other combination has no
effect. -/
def applyPair (dt : ℚ) (es : List Entity) (pr : Nat × Nat) : List Entity :=
  match getEnt es pr.1, getEnt es pr.2 with
  | some c1, some c2 =>
    match c1.kind, c2.kind with
    | EKind.player, EKind.player =>
        if c1.life > 0 ∧ c2.life > 0 ∧ fabs (c1.life - c2.life) > 1 then
          setLife (setLife es pr.1 (c1.life - 2 * dt)) pr.2 (c2.life - 2 * dt)
        else es
    | EKind.food, EKind.player =>
        if c1.life > 0 then
          setLife (setLife es pr.2 (c2.life + c1.life)) pr.1 0
        else es
    | EKind.player, EKind.food =>
        if c2.life > 0 then
          setLife (setLife es pr.1 (c1.life + c2.life)) pr.2 0
        else es
    | EKind.feeder, EKind.player => setLife es pr.2 (c2.life + 0.1 * dt)
    | EKind.player, EKind.feeder => setLife es pr.1 (c1.life + 0.1 * dt)
    | _, _ => es
  | _, _ => es

/-- The consequence loop: process every reported pair once, in the order
the collision manager yields them. -/
def applyAllPairs (dt : ℚ) (prs : List (Nat × Nat)) (es : List Entity) : List Entity :=
  prs.foldl (applyPair dt) es

/-- The out-of-bounds test of the death evaluation (line 187). -/
def oob (e : Entity) : Prop :=
  e.pos.1 < 10 ∨ e.pos.1 > (WIDTH : ℚ) - 10 ∨ e.pos.2 < 10 ∨ e.pos.2 > (HEIGHT : ℚ) - 10

instance oobDec (e : Entity) : Decidable (oob e) := by
  unfold oob
  infer_instance

/-- Entries the death loop (lines 182-189) appends for one rostered
player: once if its life is non-positive, and once more if its position
is out of bounds (two independent if statements). -/
def deadEntries (es : List Entity) (i : Nat) : List Nat :=
  match getEnt es i with
  | none => []
  | some e => (if e.life ≤ 0 then [i] else []) ++ (if oob e then [i] else [])

/-- The dead_players list built by the death-evaluation loop. -/
def deadList (es : List Entity) : List Nat → List Nat
  | [] => []
  | i :: ro => deadEntries es i ++ deadList es ro

/-- list.remove: delete the first occurrence, or raise ValueError (none)
when the element is absent. -/
def removeFirst (x : Nat) : List Nat → Option (List Nat)
  | [] => none
  | y :: ys => if y = x then some ys else (removeFirst x ys).map (fun l => y :: l)

/-- The pruning loop (lines 191-198): remove each dead entry from the
roster in order; a failing removal raises ValueError and aborts. -/
def prune (ro : List Nat) : List Nat → Option (List Nat)
  | [] => some ro
  | i :: ds => match removeFirst i ro with
    | none => none
    | some ro1 => prune ro1 ds

/-- Per-entity effect of parking: a dead player is moved to the
off-screen position (-100, -100); the collision shape is not touched. -/
def parkEnt (dead : List Nat) (e : Entity) : Entity :=
  if e.id ∈ dead then { e with pos := (-100, -100) } else e

/-- The pruning loop also parks each dead player off screen. -/
def park (dead : List Nat) (es : List Entity) : List Entity :=
  es.map (parkEnt dead)

/-- random.randrange lo hi driven by one raw draw: an integer in
[lo, hi - 1]. -/
def randrange (lo hi : ℤ) (r : Nat) : ℤ := lo + (r : ℤ) % (hi - lo)

/-- Main.__rand_position: a random integer point with both coordinates
in [10, WIDTH - 10 - 1] resp. [10, HEIGHT - 10 - 1]. -/
def randPosition (r : Nat × Nat) : ℚ × ℚ :=
  ((randrange 10 (WIDTH - 10) r.1 : ℤ), (randrange 10 (HEIGHT - 10) r.2 : ℤ))

/-- Per-entity effect of the respawn loop: a food with non-positive
life gets a fresh random position and life 1; its collision shape keeps
the old center until the next update phase. -/
def respEnt (rng : Nat → Nat × Nat) (foods : List Nat) (e : Entity) : Entity :=
  if e.id ∈ foods ∧ e.life ≤ 0 then
    { e with pos := randPosition (rng e.id), life := 1 }
  else e

/-- The food respawn loop (lines 200-204). -/
def respawn (rng : Nat → Nat × Nat) (foods : List Nat) (es : List Entity) : List Entity :=
  es.map (respEnt rng foods)

/-- The engine state: the collision-manager contents (entities), the
active roster (self.__players), the food pool (self.__food) and the
feeder, the latter three as id lists. Nothing ever removes an entity
from the collision manager (Main.add registers, nothing unregisters). -/
structure GameState where
  entities : List Entity
  roster : List Nat
  foods : List Nat
  feederId : Nat

/-- Entity list after the update loops of one call of Main.__update. -/
def postUpdate (dt : ℚ) (s : GameState) : List Entity :=
  updatePhase dt s.roster s.foods s.feederId s.entities

/-- Entity list after the update loops and the consequence loop of one
call of Main.__update. -/
def postConseq (dt : ℚ) (s : GameState) : List Entity :=
  applyAllPairs dt (collisionPairs (postUpdate dt s)) (postUpdate dt s)

/-- One call of Main.__update: update loops, collision scan, consequence
loop, death evaluation, pruning (none when list.remove raises
ValueError), food respawn. -/
def tick (dt : ℚ) (rng : Nat → Nat × Nat) (s : GameState) : Option GameState :=
  let es2 := postConseq dt s
  let dead := deadList es2 s.roster
  match prune s.roster dead with
  | none => none
  | some ro1 =>
      some { s with
        entities := respawn rng s.foods (park dead es2),
        roster := ro1 }

/-- Life of the entity with id i, when present. -/
def lifeIn (es : List Entity) (i : Nat) : Option ℚ :=
  (getEnt es i).map Entity.life

/-- MoveAI.__SPEED, the fixed per-step movement speed. -/
def SPEED : ℝ := 1.5

/-- A Python value handed back by a strategy call: a number, or a
non-numeric value (one that multiplication rejects with TypeError). -/
inductive PyVal
  | num (x : ℝ)
  | nonNum

/-- Outcome of calling ai.update: raise models a thrown exception (a
non-iterable return value also raises, still inside the try block);
ret l models an iterable return unpacking into the values of l. -/
inductive AIResult
  | raise
  | ret (vals : List PyVal)

/-- The movement normalization of MoveAI.step (lines 229-232): with
mag = (dx*dx + dy*dy) ** 0.5, divide both components by mag when
math.fabs(mag) exceeds 1e-6, otherwise keep the raw vector. -/
noncomputable def normalizeMove (dx dy : ℝ) : ℝ × ℝ :=
  if |Real.sqrt (dx * dx + dy * dy)| > 1e-6 then
    (dx / Real.sqrt (dx * dx + dy * dy), dy / Real.sqrt (dx * dx + dy * dy))
  else (dx, dy)

/-- The displacement MoveAI.step adds to the player position: the
normalized vector scaled by SPEED. -/
noncomputable def displacement (dx dy : ℝ) : ℝ × ℝ :=
  ((normalizeMove dx dy).1 * SPEED, (normalizeMove dx dy).2 * SPEED)

/-- Vector magnitude, (x*x + y*y) ** 0.5. -/
noncomputable def magOf (v : ℝ × ℝ) : ℝ := Real.sqrt (v.1 * v.1 + v.2 * v.2)

/-- MoveAI.step for one player. The try block covers only the strategy
call and the unpacking dx, dy = ...: a thrown exception or a return of
arity other than two is caught and replaced by the zero vector, but a
successfully unpacked pair holding a non-numeric value raises TypeError
at mag = (dx*dx + dy*dy) ** 0.5, outside the try, and propagates
(modelled as error). Otherwise the new position is returned. -/
noncomputable def moveStep (res : AIResult) (pos : ℝ × ℝ) : Except Unit (ℝ × ℝ) :=
  match res with
  | AIResult.raise =>
      Except.ok (pos.1 + (displacement 0 0).1, pos.2 + (displacement 0 0).2)
  | AIResult.ret [PyVal.num dx, PyVal.num dy] =>
      Except.ok (pos.1 + (displacement dx dy).1, pos.2 + (displacement dx dy).2)
  | AIResult.ret [_, _] => Except.error ()
  | AIResult.ret _ =>
      Except.ok (pos.1 + (displacement 0 0).1, pos.2 + (displacement 0 0).2)

/-- The observation snapshot MoveAI.step passes to ai.update (lines
219-221): the roster positions, the roster lives, and the food
positions. Food life is not passed. -/
def snapshot (players foods : List Entity) : List (ℚ × ℚ) × List ℚ × List (ℚ × ℚ) :=
  (players.map Entity.pos, players.map Entity.life, foods.map Entity.pos)

/-- The feeder of Main.__init_map: radius 80 / 2, at the arena center. -/
def feederEnt : Entity :=
  { id := 0, kind := EKind.feeder, pos := (400, 400), cshape := (400, 400),
    radius := 40, life := 0 }

/-- Combat scenario, player A: life 5 at (100, 100), radius 25 / 2. -/
def playerA : Entity :=
  { id := 1, kind := EKind.player, pos := (100, 100), cshape := (100, 100),
    radius := 25 / 2, life := 5 }

/-- Combat scenario, player B: life 3 at (105, 100), radius 25 / 2. -/
def playerB : Entity :=
  { id := 2, kind := EKind.player, pos := (105, 100), cshape := (105, 100),
    radius := 25 / 2, life := 3 }

/-- Combat scenario state: the feeder and the two players. -/
def combatState : GameState :=
  { entities := [feederEnt, playerA, playerB], roster := [1, 2], foods := [], feederId := 0 }

/-- A fixed randomness oracle (every raw draw is zero). -/
def rng0 : Nat → Nat × Nat := fun _ => (0, 0)

/-- A strategy return value is numeric when multiplication accepts it. -/
def isNum : PyVal → Prop
  | PyVal.num _ => True
  | PyVal.nonNum => False

/-- Identity and kind of an entity (no engine phase ever changes them). -/
def tag (e : Entity) : Nat × EKind := (e.id, e.kind)

/-- Everything except the life value (the consequence loop only writes
life). -/
def frame (e : Entity) : Nat × EKind × (ℚ × ℚ) × (ℚ × ℚ) × ℚ :=
  (e.id, e.kind, e.pos, e.cshape, e.radius)

/-- The inset arena bounds the death check and the random spawn use. -/
def inBounds (p : ℚ × ℚ) : Prop :=
  10 ≤ p.1 ∧ p.1 ≤ (WIDTH : ℚ) - 10 ∧ 10 ≤ p.2 ∧ p.2 ≤ (HEIGHT : ℚ) - 10

/-- Order scenario, player at (120, 100) with life 3. -/
def orderB : Entity :=
  { id := 2, kind := EKind.player, pos := (120, 100), cshape := (120, 100),
    radius := 25 / 2, life := 3 }

/-- Order scenario, player at (80, 100) with life 21 / 5. -/
def orderC : Entity :=
  { id := 3, kind := EKind.player, pos := (80, 100), cshape := (80, 100),
    radius := 25 / 2, life := 21 / 5 }

/-- Order scenario: player A overlaps both B and C, while B and C stay
clear of each other. -/
def orderEnts : List Entity := [playerA, orderB, orderC]

/-- A live player exactly on the margin x = 10. -/
def edgeAlive : Entity :=
  { id := 1, kind := EKind.player, pos := (10, 400), cshape := (10, 400),
    radius := 25 / 2, life := 1 }

/-- A live player just past the margin, at x = 9.99. -/
def edgeDead : Entity :=
  { id := 1, kind := EKind.player, pos := (999 / 100, 400), cshape := (999 / 100, 400),
    radius := 25 / 2, life := 1 }

/-- A food pellet with life 1 near the feeder. -/
def foodOne : Entity :=
  { id := 2, kind := EKind.food, pos := (410, 400), cshape := (410, 400),
    radius := 6, life := 1 }

/-- The same pellet already consumed (life 0). -/
def foodZero : Entity :=
  { id := 2, kind := EKind.food, pos := (410, 400), cshape := (410, 400),
    radius := 6, life := 0 }

/-- A player that died earlier: pruned from the roster, parked at
(-100, -100), but still registered in the collision manager with its
shape frozen where it died, next to the feeder and a pellet. -/
def deadPlayer : Entity :=
  { id := 1, kind := EKind.player, pos := (-100, -100), cshape := (405, 400),
    radius := 25 / 2, life := -1 / 2 }

/-- State after that death: empty roster, the dead player still in the
collision manager, a live pellet overlapping its frozen shape. -/
def deadState : GameState :=
  { entities := [feederEnt, deadPlayer, foodOne], roster := [], foods := [2], feederId := 0 }

/-- The state one tick after deadState: the dead player received feeder
life and consumed the pellet through its frozen shape; the pellet
respawned at the oracle position. -/
def deadStateAfter : GameState :=
  { entities := [feederEnt,
      { id := 1, kind := EKind.player, pos := (-100, -100), cshape := (405, 400),
        radius := 25 / 2, life := 3 / 5 },
      { id := 2, kind := EKind.food, pos := (10, 10), cshape := (410, 400),
        radius := 6, life := 1 }],
    roster := [], foods := [2], feederId := 0 }

/-- A rostered player that is simultaneously drained below zero and out
of bounds. -/
def stuckPlayer : Entity :=
  { id := 1, kind := EKind.player, pos := (5, 5), cshape := (5, 5),
    radius := 25 / 2, life := -1 / 2 }

/-- State whose next tick appends the same player to dead_players twice. -/
def crashState : GameState :=
  { entities := [feederEnt, stuckPlayer], roster := [1], foods := [], feederId := 0 }

/-- A consumed pellet away from everything, awaiting respawn. -/
def foodSpent : Entity :=
  { id := 2, kind := EKind.food, pos := (200, 200), cshape := (200, 200),
    radius := 6, life := 0 }

/-- Respawn scenario state: just the feeder and the consumed pellet. -/
def feedState : GameState :=
  { entities := [feederEnt, foodSpent], roster := [], foods := [2], feederId := 0 }

/-- The state one tick after feedState: the pellet respawned with life 1
at the oracle position. -/
def feedStateAfter : GameState :=
  { entities := [feederEnt,
      { id := 2, kind := EKind.food, pos := (10, 10), cshape := (200, 200),
        radius := 6, life := 1 }],
    roster := [], foods := [2], feederId := 0 }

/-- The binary-life invariant of the food pool: every food entity holds
life exactly 0 or 1. -/
def foodInv (es : List Entity) : Prop :=
  ∀ e ∈ es, e.kind = EKind.food → e.life = 0 ∨ e.life = 1

theorem getEnt_id (es : List Entity) (i : Nat) (e : Entity)
    (h : getEnt es i = some e) : e.id = i := by
  induction es with
  | nil => simp [getEnt] at h
  | cons a es ih =>
    rw [getEnt] at h
    by_cases ha : a.id = i
    · rw [if_pos ha] at h
      cases h
      exact ha
    · rw [if_neg ha] at h
      exact ih h

theorem getEnt_map (es : List Entity) (f : Entity → Entity)
    (hf : ∀ e, (f e).id = e.id) (i : Nat) :
    getEnt (es.map f) i = (getEnt es i).map f := by
  induction es with
  | nil => rfl
  | cons a es ih =>
    rw [List.map_cons, getEnt, getEnt, hf a]
    by_cases ha : a.id = i
    · rw [if_pos ha, if_pos ha]
      rfl
    · rw [if_neg ha, if_neg ha, ih]

theorem updEnt_id (dt : ℚ) (ro fo : List Nat) (fid : Nat) (e : Entity) :
    (updEnt dt ro fo fid e).id = e.id := by
  unfold updEnt baseUpdate playerUpdate
  split <;> split <;> split <;> rfl

theorem fabs_sub_comm (x y : ℚ) : fabs (x - y) = fabs (y - x) := by
  unfold fabs
  by_cases h : x - y < 0
  · rw [if_pos h, if_neg (by linarith)]
    ring
  · by_cases h2 : y - x < 0
    · rw [if_neg h, if_pos h2]
      ring
    · rw [if_neg h, if_neg h2]
      linarith

theorem setLife_comm (es : List Entity) (i j : Nat) (a b : ℚ) (hij : i ≠ j) :
    setLife (setLife es i a) j b = setLife (setLife es j b) i a := by
  unfold setLife
  rw [List.map_map, List.map_map]
  congr 1
  funext e
  simp only [Function.comp]
  by_cases h1 : e.id = i <;> by_cases h2 : e.id = j
  · exact absurd (h1.symm.trans h2) hij
  · simp [h1, h2, hij, Ne.symm hij]
  · simp [h1, h2, hij, Ne.symm hij]
  · simp [h1, h2, hij, Ne.symm hij]

/-- C1 counterexample: in the combat scenario (A with life 5 at
(100, 100), B with life 3 at (105, 100), dt = 1) the post-tick life of
player A is 27 / 10, not the 3 the claim derives from the collision rule
alone: the per-tick 0.3 * dt drain of Player.update also fires. -/
theorem C1_counterexample :
    (tick 1 rng0 combatState).bind (fun s1 => lifeIn s1.entities 1) ≠ some 3 ∧
    (tick 1 rng0 combatState).bind (fun s1 => lifeIn s1.entities 1) = some (27 / 10) := by
  constructor <;>
    norm_num [tick, postConseq, postUpdate, updatePhase, updEnt, baseUpdate, playerUpdate,
      combatState, feederEnt, playerA, playerB, overlaps, getEnt, List.filter,
      collisionPairs, applyAllPairs, applyPair, fabs, setLife, deadEntries, deadList, oob,
      removeFirst, prune, park, parkEnt, respawn, respEnt, lifeIn, rng0, WIDTH, HEIGHT]

/-- C1 amended: the pair (A, B) is detected and the Player-Player rule
costs each 2 * dt life, but the update phase also drains 0.3 * dt, so
with dt = 1 the post-tick lives are A = 5 - 0.3 - 2 = 27 / 10 and
B = 3 - 0.3 - 2 = 7 / 10. -/
theorem C1_amended :
    collisionPairs (postUpdate 1 combatState) = [(1, 2)] ∧
    (tick 1 rng0 combatState).bind (fun s1 => lifeIn s1.entities 1) = some (27 / 10) ∧
    (tick 1 rng0 combatState).bind (fun s1 => lifeIn s1.entities 2) = some (7 / 10) := by
  refine ⟨?_, ?_, ?_⟩ <;>
    norm_num [tick, postConseq, postUpdate, updatePhase, updEnt, baseUpdate, playerUpdate,
      combatState, feederEnt, playerA, playerB, overlaps, getEnt, List.filter,
      collisionPairs, applyAllPairs, applyPair, fabs, setLife, deadEntries, deadList, oob,
      removeFirst, prune, park, parkEnt, respawn, respEnt, lifeIn, rng0, WIDTH, HEIGHT]

/-- C2 (confirmed): the update phase of every tick sends each rostered
player to life - 0.3 * dt, unconditionally: the phase takes no collision
or strategy input, and the drain happens whatever the other id lists
contain. -/
theorem C2_update_drain (dt : ℚ) (ro fo : List Nat) (fid : Nat) (es : List Entity)
    (i : Nat) (e : Entity) (hg : getEnt es i = some e) (hro : i ∈ ro) :
    ∃ e1, getEnt (updatePhase dt ro fo fid es) i = some e1 ∧
      e1.life = e.life - 0.3 * dt ∧ e1.pos = e.pos := by
  have hid := getEnt_id es i e hg
  have hros : e.id ∈ ro := hid ▸ hro
  refine ⟨updEnt dt ro fo fid e, ?_, ?_, ?_⟩
  · rw [updatePhase, getEnt_map es _ (updEnt_id dt ro fo fid) i, hg]
    rfl
  · unfold updEnt baseUpdate playerUpdate
    simp only [hros, if_true]
    split_ifs <;> rfl
  · unfold updEnt baseUpdate playerUpdate
    split_ifs <;> rfl

/-- C2 witness: player A (life 5) after the update phase of a dt = 1
tick sits at life 5 - 0.3. -/
theorem C2_witness :
    ∃ e1, getEnt (updatePhase 1 [1, 2] [] 0 combatState.entities) 1 = some e1 ∧
      e1.life = playerA.life - 0.3 * 1 ∧ e1.pos = playerA.pos :=
  C2_update_drain 1 [1, 2] [] 0 combatState.entities 1 playerA
    (by norm_num [combatState, getEnt, feederEnt, playerA])
    (by simp)

/-- C4 counterexample: three players A (life 5), B (life 3), C (life
21 / 5), with A overlapping B and C; the collision scan reports the pair
set as [(1, 2), (1, 3)], and processing it in the two possible orders
leaves A at life 1 resp. 3 — the Player-Player condition reads lives the
other pair already changed, so iteration order is observable. -/
theorem C4_counterexample :
    collisionPairs orderEnts = [(1, 2), (1, 3)] ∧
    List.Perm [(1, 3), (1, 2)] [(1, 2), (1, 3)] ∧
    lifeIn (applyAllPairs 1 [(1, 2), (1, 3)] orderEnts) 1 = some 1 ∧
    lifeIn (applyAllPairs 1 [(1, 3), (1, 2)] orderEnts) 1 = some 3 ∧
    lifeIn (applyAllPairs 1 [(1, 2), (1, 3)] orderEnts) 1 ≠
      lifeIn (applyAllPairs 1 [(1, 3), (1, 2)] orderEnts) 1 := by
  refine ⟨?_, by decide, ?_, ?_, ?_⟩ <;>
    norm_num [collisionPairs, orderEnts, playerA, orderB, orderC, overlaps, List.filter,
      applyAllPairs, applyPair, getEnt, fabs, setLife, lifeIn]

/-- C4 amended: what does hold is symmetry within one pair: processing
(i, j) and processing (j, i) are the same state transformation, for
every pair and state; independence of the iteration order across
distinct pairs fails (see the counterexample). -/
theorem C4_amended (dt : ℚ) (es : List Entity) (i j : Nat) :
    applyPair dt es (i, j) = applyPair dt es (j, i) := by
  rcases eq_or_ne i j with rfl | hij
  · rfl
  unfold applyPair
  rcases hgi : getEnt es i with _ | c1 <;> rcases hgj : getEnt es j with _ | c2 <;>
    simp only [hgi, hgj] <;> try rfl
  rcases hk1 : c1.kind <;> rcases hk2 : c2.kind <;> simp only [hk1, hk2] <;> try rfl
  by_cases hc : c1.life > 0 ∧ c2.life > 0 ∧ fabs (c1.life - c2.life) > 1
  · have hc2 : c2.life > 0 ∧ c1.life > 0 ∧ fabs (c2.life - c1.life) > 1 := by
      rw [fabs_sub_comm]
      tauto
    rw [if_pos hc, if_pos hc2]
    exact setLife_comm es i j _ _ hij
  · have hc2 : ¬(c2.life > 0 ∧ c1.life > 0 ∧ fabs (c2.life - c1.life) > 1) := by
      rw [fabs_sub_comm]
      tauto
    rw [if_neg hc, if_neg hc2]

/-- C10 (confirmed): the snapshot handed to every strategy holds only
roster positions, roster lives and food positions; two food pools with
the same positions produce the same snapshot whatever their life flags. -/
theorem C10_snapshot_noninterference (ps fs fs' : List Entity)
    (h : fs.map Entity.pos = fs'.map Entity.pos) :
    snapshot ps fs = snapshot ps fs' := by
  unfold snapshot
  rw [h]

/-- C10 witness: a pellet with life 1 and the same pellet consumed give
identical snapshots. -/
theorem C10_witness : snapshot [playerA] [foodOne] = snapshot [playerA] [foodZero] :=
  C10_snapshot_noninterference [playerA] [foodOne] [foodZero]
    (by norm_num [foodOne, foodZero])

theorem normalizeMove_big (dx dy : ℝ) (h : |Real.sqrt (dx * dx + dy * dy)| > 1e-6) :
    normalizeMove dx dy =
      (dx / Real.sqrt (dx * dx + dy * dy), dy / Real.sqrt (dx * dx + dy * dy)) := by
  unfold normalizeMove
  rw [if_pos h]

theorem normalizeMove_small (dx dy : ℝ) (h : ¬|Real.sqrt (dx * dx + dy * dy)| > 1e-6) :
    normalizeMove dx dy = (dx, dy) := by
  unfold normalizeMove
  rw [if_neg h]

theorem displacement_zero : displacement 0 0 = ((0 : ℝ), (0 : ℝ)) := by
  unfold displacement
  rw [normalizeMove_small 0 0 (by norm_num [Real.sqrt_zero])]
  norm_num

theorem fallback_ok (pos : ℝ × ℝ) :
    ((pos.1 + (displacement 0 0).1, pos.2 + (displacement 0 0).2) : ℝ × ℝ) = pos := by
  rw [displacement_zero]
  simp

/-- C3 counterexample: a strategy that returns a well-formed pair of
non-numeric values is not caught: the TypeError raised by
mag = (dx*dx + dy*dy) ** 0.5 happens outside the try block of
MoveAI.step and propagates, halting the tick. -/
theorem C3_counterexample :
    moveStep (AIResult.ret [PyVal.nonNum, PyVal.nonNum]) (100, 100) = Except.error () := rfl

/-- C3 amended: a strategy call that throws, or whose return value fails
to unpack into exactly two components, is caught and replaced by the
zero vector, leaving the position unchanged and the tick running; but a
return that unpacks into two values of which at least one is non-numeric
raises at the normalization line, outside the handler, and propagates. -/
theorem C3_amended (res : AIResult) (pos : ℝ × ℝ) :
    (moveStep res pos = Except.error () ↔
      ∃ a b, res = AIResult.ret [a, b] ∧ ¬(isNum a ∧ isNum b)) ∧
    (res = AIResult.raise → moveStep res pos = Except.ok pos) ∧
    (∀ l, res = AIResult.ret l → l.length ≠ 2 → moveStep res pos = Except.ok pos) := by
  rcases res with _ | l
  · refine ⟨?_, fun _ => ?_, fun l h => absurd h (by simp)⟩
    · rw [show moveStep AIResult.raise pos
          = Except.ok (pos.1 + (displacement 0 0).1, pos.2 + (displacement 0 0).2) from rfl]
      simp
    · rw [show moveStep AIResult.raise pos
          = Except.ok (pos.1 + (displacement 0 0).1, pos.2 + (displacement 0 0).2) from rfl,
        fallback_ok]
  · rcases l with _ | ⟨a, l⟩
    · refine ⟨?_, fun h => absurd h (by simp), fun l h _ => ?_⟩
      · rw [show moveStep (AIResult.ret []) pos
            = Except.ok (pos.1 + (displacement 0 0).1, pos.2 + (displacement 0 0).2) from rfl]
        simp
      · rw [show moveStep (AIResult.ret []) pos
            = Except.ok (pos.1 + (displacement 0 0).1, pos.2 + (displacement 0 0).2) from rfl,
          fallback_ok]
    · rcases l with _ | ⟨b, l⟩
      · refine ⟨?_, fun h => absurd h (by simp), fun l h _ => ?_⟩
        · rcases a with x | _
          · rw [show moveStep (AIResult.ret [PyVal.num x]) pos
                = Except.ok (pos.1 + (displacement 0 0).1, pos.2 + (displacement 0 0).2)
                from rfl]
            simp
          · rw [show moveStep (AIResult.ret [PyVal.nonNum]) pos
                = Except.ok (pos.1 + (displacement 0 0).1, pos.2 + (displacement 0 0).2)
                from rfl]
            simp
        · rcases a with x | _
          · rw [show moveStep (AIResult.ret [PyVal.num x]) pos
                = Except.ok (pos.1 + (displacement 0 0).1, pos.2 + (displacement 0 0).2)
                from rfl,
              fallback_ok]
          · rw [show moveStep (AIResult.ret [PyVal.nonNum]) pos
                = Except.ok (pos.1 + (displacement 0 0).1, pos.2 + (displacement 0 0).2)
                from rfl,
              fallback_ok]
      · rcases l with _ | ⟨c, l⟩
        · refine ⟨?_,
            fun h => absurd h (by simp),
            fun l1 h hl => absurd hl (by injection h with h2; rw [← h2]; simp)⟩
          rcases a with x | _ <;> rcases b with y | _
          · rw [show moveStep (AIResult.ret [PyVal.num x, PyVal.num y]) pos
                = Except.ok (pos.1 + (displacement x y).1, pos.2 + (displacement x y).2)
                from rfl]
            simp [isNum]
          · rw [show moveStep (AIResult.ret [PyVal.num x, PyVal.nonNum]) pos
                = Except.error () from rfl]
            exact iff_of_true rfl ⟨PyVal.num x, PyVal.nonNum, rfl, by simp [isNum]⟩
          · rw [show moveStep (AIResult.ret [PyVal.nonNum, PyVal.num y]) pos
                = Except.error () from rfl]
            exact iff_of_true rfl ⟨PyVal.nonNum, PyVal.num y, rfl, by simp [isNum]⟩
          · rw [show moveStep (AIResult.ret [PyVal.nonNum, PyVal.nonNum]) pos
                = Except.error () from rfl]
            exact iff_of_true rfl ⟨PyVal.nonNum, PyVal.nonNum, rfl, by simp [isNum]⟩
        · refine ⟨?_, fun h => absurd h (by simp), fun l1 h _ => ?_⟩
          · rcases a with x | _ <;> rcases b with y | _
            · rw [show moveStep (AIResult.ret (PyVal.num x :: PyVal.num y :: c :: l)) pos
                  = Except.ok (pos.1 + (displacement 0 0).1, pos.2 + (displacement 0 0).2)
                  from rfl]
              simp
            · rw [show moveStep (AIResult.ret (PyVal.num x :: PyVal.nonNum :: c :: l)) pos
                  = Except.ok (pos.1 + (displacement 0 0).1, pos.2 + (displacement 0 0).2)
                  from rfl]
              simp
            · rw [show moveStep (AIResult.ret (PyVal.nonNum :: PyVal.num y :: c :: l)) pos
                  = Except.ok (pos.1 + (displacement 0 0).1, pos.2 + (displacement 0 0).2)
                  from rfl]
              simp
            · rw [show moveStep (AIResult.ret (PyVal.nonNum :: PyVal.nonNum :: c :: l)) pos
                  = Except.ok (pos.1 + (displacement 0 0).1, pos.2 + (displacement 0 0).2)
                  from rfl]
              simp
          · rcases a with x | _ <;> rcases b with y | _
            · rw [show moveStep (AIResult.ret (PyVal.num x :: PyVal.num y :: c :: l)) pos
                  = Except.ok (pos.1 + (displacement 0 0).1, pos.2 + (displacement 0 0).2)
                  from rfl,
                fallback_ok]
            · rw [show moveStep (AIResult.ret (PyVal.num x :: PyVal.nonNum :: c :: l)) pos
                  = Except.ok (pos.1 + (displacement 0 0).1, pos.2 + (displacement 0 0).2)
                  from rfl,
                fallback_ok]
            · rw [show moveStep (AIResult.ret (PyVal.nonNum :: PyVal.num y :: c :: l)) pos
                  = Except.ok (pos.1 + (displacement 0 0).1, pos.2 + (displacement 0 0).2)
                  from rfl,
                fallback_ok]
            · rw [show moveStep (AIResult.ret (PyVal.nonNum :: PyVal.nonNum :: c :: l)) pos
                  = Except.ok (pos.1 + (displacement 0 0).1, pos.2 + (displacement 0 0).2)
                  from rfl,
                fallback_ok]

/-- C3 witness: a throwing strategy leaves its player in place and the
step succeeds. -/
theorem C3_witness : moveStep AIResult.raise (3, 4) = Except.ok (3, 4) :=
  (C3_amended AIResult.raise (3, 4)).2.1 rfl

/-- C5 counterexample: the nonzero input vector (1e-7, 0) has magnitude
below the 1e-6 guard, is not normalized, and yields a displacement of
magnitude 1.5e-7, not the speed constant 1.5. -/
theorem C5_counterexample :
    ((1e-7 : ℝ), (0 : ℝ)) ≠ ((0 : ℝ), (0 : ℝ)) ∧
    magOf (displacement 1e-7 0) ≠ SPEED := by
  have hsq : Real.sqrt ((1e-7 : ℝ) * 1e-7 + 0 * 0) = 1e-7 := by
    rw [show ((1e-7 : ℝ) * 1e-7 + 0 * 0) = (1e-7 : ℝ) ^ 2 by ring,
      Real.sqrt_sq (by norm_num)]
  constructor
  · intro h
    rw [Prod.mk.injEq] at h
    norm_num at h
  · unfold magOf displacement
    rw [normalizeMove_small 1e-7 0
      (by rw [hsq, abs_of_nonneg (by norm_num : (0 : ℝ) ≤ 1e-7)]; norm_num)]
    dsimp only
    rw [show ((1e-7 : ℝ) * SPEED * ((1e-7 : ℝ) * SPEED) + (0 : ℝ) * SPEED * ((0 : ℝ) * SPEED))
        = ((15 : ℝ) / 100000000) ^ 2 by norm_num [SPEED],
      Real.sqrt_sq (by norm_num)]
    norm_num [SPEED]

/-- C5 amended: when the magnitude clears the 1e-6 guard the
displacement has magnitude exactly SPEED = 1.5 and points along the
input vector; the zero vector gives zero displacement; but a vector at
or below the guard is passed through unscaled, so a tiny nonzero input
moves the player by 1.5 times its raw length instead of 1.5. -/
theorem C5_amended (dx dy : ℝ) :
    (|Real.sqrt (dx * dx + dy * dy)| > 1e-6 →
      magOf (displacement dx dy) = SPEED ∧
      ∃ c : ℝ, 0 < c ∧ displacement dx dy = (c * dx, c * dy)) ∧
    ((dx, dy) = ((0 : ℝ), (0 : ℝ)) → displacement dx dy = (0, 0)) ∧
    (|Real.sqrt (dx * dx + dy * dy)| ≤ 1e-6 →
      displacement dx dy = (dx * SPEED, dy * SPEED)) := by
  refine ⟨?_, ?_, ?_⟩
  · intro h
    have hmnn : 0 ≤ Real.sqrt (dx * dx + dy * dy) := Real.sqrt_nonneg _
    have hm6 : Real.sqrt (dx * dx + dy * dy) > 1e-6 := by rwa [abs_of_nonneg hmnn] at h
    have hm0 : 0 < Real.sqrt (dx * dx + dy * dy) := lt_trans (by norm_num) hm6
    have hs0 : 0 < dx * dx + dy * dy := Real.sqrt_pos.mp hm0
    have hmm : Real.sqrt (dx * dx + dy * dy) * Real.sqrt (dx * dx + dy * dy)
        = dx * dx + dy * dy := Real.mul_self_sqrt hs0.le
    constructor
    · unfold magOf displacement
      rw [normalizeMove_big dx dy h]
      dsimp only
      rw [show dx / Real.sqrt (dx * dx + dy * dy) * SPEED *
            (dx / Real.sqrt (dx * dx + dy * dy) * SPEED) +
          dy / Real.sqrt (dx * dx + dy * dy) * SPEED *
            (dy / Real.sqrt (dx * dx + dy * dy) * SPEED) = SPEED * SPEED by
        field_simp
        ring]
      exact Real.sqrt_mul_self (by norm_num [SPEED])
    · refine ⟨SPEED / Real.sqrt (dx * dx + dy * dy),
        div_pos (by norm_num [SPEED]) hm0, ?_⟩
      unfold displacement
      rw [normalizeMove_big dx dy h]
      dsimp only
      rw [Prod.mk.injEq]
      constructor <;> ring
  · intro h
    rw [Prod.mk.injEq] at h
    rw [h.1, h.2]
    exact displacement_zero
  · intro h
    unfold displacement
    rw [normalizeMove_small dx dy (not_lt.mpr h)]

/-- C5 witness: the input (3, 4) has magnitude 5 above the guard, and
its displacement has magnitude exactly SPEED. -/
theorem C5_witness : magOf (displacement 3 4) = SPEED := by
  have h : |Real.sqrt ((3 : ℝ) * 3 + 4 * 4)| > 1e-6 := by
    rw [show ((3 : ℝ) * 3 + 4 * 4) = (5 : ℝ) ^ 2 by norm_num,
      Real.sqrt_sq (by norm_num), abs_of_nonneg (by norm_num : (0 : ℝ) ≤ 5)]
    norm_num
  exact ((C5_amended 3 4).1 h).1

theorem mem_deadEntries (es : List Entity) (j x : Nat) (h : x ∈ deadEntries es j) :
    x = j := by
  unfold deadEntries at h
  rcases hg : getEnt es j with _ | e <;> rw [hg] at h
  · simp at h
  · rw [List.mem_append] at h
    rcases h with h | h <;> split at h <;> simp_all

theorem mem_deadList_iff (es : List Entity) (ro : List Nat) (i : Nat) (e : Entity)
    (hg : getEnt es i = some e) :
    i ∈ deadList es ro ↔ i ∈ ro ∧ (e.life ≤ 0 ∨ oob e) := by
  induction ro with
  | nil => simp [deadList]
  | cons j ro ih =>
    rw [deadList, List.mem_append, ih, List.mem_cons]
    by_cases hji : j = i
    · subst hji
      rw [deadEntries, hg]
      by_cases hl : e.life ≤ 0 <;> by_cases ho : oob e <;>
        simp [hl, ho]
    · constructor
      · rintro (h | ⟨hm, hc⟩)
        · exact absurd (mem_deadEntries es j i h) (fun hh => hji hh.symm)
        · exact ⟨Or.inr hm, hc⟩
      · rintro ⟨hm | hm, hc⟩
        · exact absurd hm.symm hji
        · exact Or.inr ⟨hm, hc⟩

/-- C8 (confirmed): a rostered player with positive life lands in the
dead list exactly when its position violates the strict inset bounds
x < 10 or x > 790 or y < 10 or y > 790 of the 800 x 800 arena. -/
theorem C8_bounds_inclusivity (es : List Entity) (ro : List Nat) (i : Nat) (e : Entity)
    (hg : getEnt es i = some e) (hro : i ∈ ro) (hl : 0 < e.life) :
    i ∈ deadList es ro ↔
      (e.pos.1 < 10 ∨ e.pos.1 > 790 ∨ e.pos.2 < 10 ∨ e.pos.2 > 790) := by
  rw [mem_deadList_iff es ro i e hg]
  have hnl : ¬e.life ≤ 0 := not_le.mpr hl
  unfold oob WIDTH HEIGHT
  norm_num [hnl, hro]

/-- C8 witness: a live player exactly at x = 10 is not marked dead, a
live player at x = 9.99 is. -/
theorem C8_witness :
    1 ∉ deadList [edgeAlive] [1] ∧ 1 ∈ deadList [edgeDead] [1] := by
  constructor
  · rw [C8_bounds_inclusivity [edgeAlive] [1] 1 edgeAlive
      (by norm_num [getEnt, edgeAlive]) (by simp) (by norm_num [edgeAlive])]
    norm_num [edgeAlive]
  · rw [C8_bounds_inclusivity [edgeDead] [1] 1 edgeDead
      (by norm_num [getEnt, edgeDead]) (by simp) (by norm_num [edgeDead])]
    norm_num [edgeDead]

theorem removeFirst_eq_none (x : Nat) (ro : List Nat) :
    removeFirst x ro = none ↔ x ∉ ro := by
  induction ro with
  | nil => simp [removeFirst]
  | cons y ys ih =>
    rw [removeFirst]
    by_cases h : y = x
    · simp [h]
    · rw [if_neg h]
      simp only [Option.map_eq_none', ih, List.mem_cons]
      constructor
      · rintro hn (rfl | hmem)
        · exact h rfl
        · exact hn hmem
      · exact fun hn hmem => hn (Or.inr hmem)

theorem removeFirst_eq_erase (x : Nat) (ro : List Nat) (h : x ∈ ro) :
    removeFirst x ro = some (ro.erase x) := by
  induction ro with
  | nil => simp at h
  | cons y ys ih =>
    rw [removeFirst, List.erase_cons]
    by_cases hy : y = x
    · simp [hy]
    · have hx : x ∈ ys := by
        rcases List.mem_cons.mp h with rfl | hh
        · exact absurd rfl hy
        · exact hh
      have hb : (y == x) = false := beq_eq_false_iff_ne.mpr hy
      rw [if_neg hy, ih hx, hb]
      simp

theorem prune_none_of_count (dead ro : List Nat) (x : Nat)
    (h : ro.count x < dead.count x) : prune ro dead = none := by
  induction dead generalizing ro with
  | nil => simp [List.count_nil] at h
  | cons d ds ih =>
    rw [prune]
    by_cases hd : d ∈ ro
    · rw [removeFirst_eq_erase d ro hd]
      refine ih (ro.erase d) ?_
      rw [List.count_cons] at h
      rw [List.count_erase]
      by_cases hdx : d = x
      · subst hdx
        have hpos : 0 < ro.count d := List.count_pos_iff.mpr hd
        simp only [beq_self_eq_true, if_true] at h ⊢
        omega
      · have hb : (d == x) = false := beq_eq_false_iff_ne.mpr hdx
        simp [hb] at h ⊢
        omega
    · rw [(removeFirst_eq_none d ro).mpr hd]

theorem sublist_erase_of_cons_sublist (d : Nat) (ds ro : List Nat)
    (h : (d :: ds).Sublist ro) : ds.Sublist (ro.erase d) := by
  induction ro with
  | nil => simp at h
  | cons r ro ih =>
    rw [List.erase_cons]
    cases h with
    | cons _ h1 =>
      by_cases hr : r = d
      · rw [hr]
        simp only [beq_self_eq_true, if_true]
        exact (List.sublist_cons_self d ds).trans h1
      · have hb : (r == d) = false := beq_eq_false_iff_ne.mpr hr
        rw [hb]
        simp only [Bool.false_eq_true, if_false]
        exact (ih h1).cons r
    | cons₂ _ h1 =>
      simp only [beq_self_eq_true, if_true]
      exact h1

theorem prune_isSome_of_sublist (dead ro : List Nat) (h : dead.Sublist ro) :
    prune ro dead ≠ none := by
  induction dead generalizing ro with
  | nil => simp [prune]
  | cons d ds ih =>
    rw [prune]
    have hd : d ∈ ro := h.subset (List.mem_cons_self d ds)
    rw [removeFirst_eq_erase d ro hd]
    exact ih (ro.erase d) (sublist_erase_of_cons_sublist d ds ro h)

theorem deadList_sublist (es : List Entity) (ro : List Nat)
    (h : ∀ i ∈ ro, ∀ e, getEnt es i = some e → ¬(e.life ≤ 0 ∧ oob e)) :
    (deadList es ro).Sublist ro := by
  induction ro with
  | nil => simp [deadList]
  | cons j ro ih =>
    rw [deadList]
    have hro := ih fun i hi e hg => h i (List.mem_cons_of_mem j hi) e hg
    unfold deadEntries
    rcases hg : getEnt es j with _ | e
    · exact hro.cons j
    · have hj := h j (List.mem_cons_self j ro) e hg
      show (((if e.life ≤ 0 then [j] else []) ++ if oob e then [j] else []) ++
        deadList es ro).Sublist (j :: ro)
      by_cases hl : e.life ≤ 0 <;> by_cases ho : oob e
      · exact absurd ⟨hl, ho⟩ hj
      · rw [if_pos hl, if_neg ho]
        exact hro.cons₂ j
      · rw [if_neg hl, if_pos ho]
        exact hro.cons₂ j
      · rw [if_neg hl, if_neg ho]
        exact hro.cons j

theorem two_le_count_deadList (es : List Entity) (ro : List Nat) (i : Nat) (e : Entity)
    (hro : i ∈ ro) (hg : getEnt es i = some e) (hl : e.life ≤ 0) (ho : oob e) :
    2 ≤ (deadList es ro).count i := by
  induction ro with
  | nil => simp at hro
  | cons j ro ih =>
    rw [deadList, List.count_append]
    rcases List.mem_cons.mp hro with rfl | hmem
    · have hde : deadEntries es i = [i, i] := by
        unfold deadEntries
        rw [hg]
        show ((if e.life ≤ 0 then [i] else []) ++ if oob e then [i] else []) = [i, i]
        rw [if_pos hl, if_pos ho]
        rfl
      rw [hde]
      have hc : List.count i [i, i] = 2 := by simp
      omega
    · have := ih hmem
      omega

/-- C7 (confirmed): a tick aborts with ValueError exactly when some
rostered player simultaneously has non-positive life and an
out-of-bounds position after the consequence loop: the two independent
if statements of the death loop then append that player twice, and the
second list.remove of the pruning loop raises. -/
theorem C7_double_death (dt : ℚ) (rng : Nat → Nat × Nat) (s : GameState)
    (hnd : s.roster.Nodup) :
    tick dt rng s = none ↔
      ∃ i e, i ∈ s.roster ∧ getEnt (postConseq dt s) i = some e ∧
        e.life ≤ 0 ∧ oob e := by
  have htick : tick dt rng s = none ↔
      prune s.roster (deadList (postConseq dt s) s.roster) = none := by
    unfold tick
    rcases hp : prune s.roster (deadList (postConseq dt s) s.roster) with _ | ro1 <;>
      simp [hp]
  rw [htick]
  constructor
  · intro hnone
    by_contra hno
    push_neg at hno
    refine prune_isSome_of_sublist _ _ (deadList_sublist _ _ ?_) hnone
    intro i hi e hg hc
    exact hno i e hi hg hc.1 hc.2
  · rintro ⟨i, e, hi, hg, hl, ho⟩
    have h2 := two_le_count_deadList (postConseq dt s) s.roster i e hi hg hl ho
    have h1 : s.roster.count i = 1 := List.count_eq_one_of_mem hnd hi
    exact prune_none_of_count _ _ i (by omega)

/-- C7 witness: a player drained below zero at position (5, 5) is both
dead and out of bounds, and the tick aborts. -/
theorem C7_witness : tick 1 rng0 crashState = none := by
  rw [C7_double_death 1 rng0 crashState (by simp [crashState])]
  refine ⟨1,
    { id := 1, kind := EKind.player, pos := (5, 5), cshape := (5, 5),
      radius := 25 / 2, life := -4 / 5 },
    by simp [crashState], ?_, by norm_num, by norm_num [oob, WIDTH, HEIGHT]⟩
  norm_num [postConseq, postUpdate, updatePhase, updEnt, baseUpdate, playerUpdate,
    crashState, feederEnt, stuckPlayer, overlaps, getEnt, List.filter, collisionPairs,
    applyAllPairs, applyPair]

theorem setLife_frame (es : List Entity) (i : Nat) (l : ℚ) :
    (setLife es i l).map frame = es.map frame := by
  unfold setLife
  rw [List.map_map]
  apply List.map_congr_left
  intro e _
  by_cases h : e.id = i <;> simp [Function.comp, h, frame]

theorem applyPair_frame (dt : ℚ) (es : List Entity) (pr : Nat × Nat) :
    (applyPair dt es pr).map frame = es.map frame := by
  unfold applyPair
  rcases hg1 : getEnt es pr.1 with _ | c1 <;> rcases hg2 : getEnt es pr.2 with _ | c2 <;>
    simp only [hg1, hg2] <;> try rfl
  rcases hk1 : c1.kind <;> rcases hk2 : c2.kind <;> simp only [hk1, hk2] <;> try rfl
  all_goals first
    | (split <;> simp [setLife_frame])
    | simp [setLife_frame]

theorem applyAllPairs_frame (dt : ℚ) (prs : List (Nat × Nat)) (es : List Entity) :
    (applyAllPairs dt prs es).map frame = es.map frame := by
  induction prs generalizing es with
  | nil => rfl
  | cons p ps ih =>
    rw [applyAllPairs, List.foldl_cons]
    exact (ih (applyPair dt es p)).trans (applyPair_frame dt es p)

theorem getEnt_frame_eq (es : List Entity) (es2 : List Entity)
    (h : es.map frame = es2.map frame) (i : Nat) (e : Entity)
    (hg : getEnt es i = some e) :
    ∃ e2, getEnt es2 i = some e2 ∧ frame e2 = frame e := by
  induction es generalizing es2 with
  | nil => simp [getEnt] at hg
  | cons a es ih =>
    rcases es2 with _ | ⟨b, es2⟩
    · simp at h
    · rw [List.map_cons, List.map_cons] at h
      injection h with hab ht
      have hid : a.id = b.id := congrArg (fun t => t.1) hab
      rw [getEnt] at hg
      rw [getEnt]
      by_cases hai : a.id = i
      · rw [if_pos hai] at hg
        cases hg
        rw [if_pos (hid ▸ hai)]
        exact ⟨b, rfl, hab.symm⟩
      · rw [if_neg hai] at hg
        rw [if_neg (fun hbi => hai (hid.trans hbi))]
        exact ih es2 ht hg

theorem map_tag_of_map_frame (es es2 : List Entity)
    (h : es.map frame = es2.map frame) : es.map tag = es2.map tag := by
  have h1 : es.map tag = (es.map frame).map (fun t => (t.1, t.2.1)) := by
    rw [List.map_map]
    rfl
  have h2 : es2.map tag = (es2.map frame).map (fun t => (t.1, t.2.1)) := by
    rw [List.map_map]
    rfl
  rw [h1, h2, h]

theorem map_id_of_map_tag (es es2 : List Entity)
    (h : es.map tag = es2.map tag) : es.map Entity.id = es2.map Entity.id := by
  have h1 : es.map Entity.id = (es.map tag).map Prod.fst := by
    rw [List.map_map]
    rfl
  have h2 : es2.map Entity.id = (es2.map tag).map Prod.fst := by
    rw [List.map_map]
    rfl
  rw [h1, h2, h]

theorem map_tag_of_pointwise (es : List Entity) (f : Entity → Entity)
    (hf : ∀ e, tag (f e) = tag e) : (es.map f).map tag = es.map tag := by
  rw [List.map_map]
  apply List.map_congr_left
  intro e _
  exact hf e

theorem updEnt_tag (dt : ℚ) (ro fo : List Nat) (fid : Nat) (e : Entity) :
    tag (updEnt dt ro fo fid e) = tag e := by
  unfold updEnt baseUpdate playerUpdate tag
  split_ifs <;> rfl

theorem parkEnt_tag (dead : List Nat) (e : Entity) : tag (parkEnt dead e) = tag e := by
  unfold parkEnt tag
  split_ifs <;> rfl

theorem respEnt_tag (rng : Nat → Nat × Nat) (foods : List Nat) (e : Entity) :
    tag (respEnt rng foods e) = tag e := by
  unfold respEnt tag
  split_ifs <;> rfl

theorem parkEnt_id (dead : List Nat) (e : Entity) : (parkEnt dead e).id = e.id :=
  congrArg Prod.fst (parkEnt_tag dead e)

theorem respEnt_id (rng : Nat → Nat × Nat) (foods : List Nat) (e : Entity) :
    (respEnt rng foods e).id = e.id :=
  congrArg Prod.fst (respEnt_tag rng foods e)

theorem parkEnt_life (dead : List Nat) (e : Entity) : (parkEnt dead e).life = e.life := by
  unfold parkEnt
  split_ifs <;> rfl

theorem parkEnt_not_dead (dead : List Nat) (e : Entity) (h : e.id ∉ dead) :
    parkEnt dead e = e := by
  unfold parkEnt
  rw [if_neg h]

theorem respEnt_not_food (rng : Nat → Nat × Nat) (foods : List Nat) (e : Entity)
    (h : e.id ∉ foods) : respEnt rng foods e = e := by
  unfold respEnt
  rw [if_neg (fun hc => h hc.1)]

theorem updEnt_not_involved (dt : ℚ) (ro fo : List Nat) (fid : Nat) (e : Entity)
    (h1 : e.id ∉ ro) (h2 : e.id ∉ fo) (h3 : e.id ≠ fid) :
    updEnt dt ro fo fid e = e := by
  unfold updEnt
  simp [h1, h2, h3]

theorem updEnt_life (dt : ℚ) (ro fo : List Nat) (fid : Nat) (e : Entity)
    (h : e.id ∉ ro) : (updEnt dt ro fo fid e).life = e.life := by
  unfold updEnt baseUpdate playerUpdate
  simp only [h, if_false]
  split_ifs <;> rfl

theorem tick_some_inv (dt : ℚ) (rng : Nat → Nat × Nat) (s s1 : GameState)
    (ht : tick dt rng s = some s1) :
    s1.entities = respawn rng s.foods
      (park (deadList (postConseq dt s) s.roster) (postConseq dt s)) ∧
    s1.foods = s.foods ∧ s1.feederId = s.feederId := by
  unfold tick at ht
  rcases hp : prune s.roster (deadList (postConseq dt s) s.roster) with _ | ro1
  · simp [hp] at ht
  · simp only [hp] at ht
    obtain rfl := Option.some.inj ht
    exact ⟨rfl, rfl, rfl⟩

theorem tick_tag (dt : ℚ) (rng : Nat → Nat × Nat) (s s1 : GameState)
    (ht : tick dt rng s = some s1) :
    s1.entities.map tag = s.entities.map tag := by
  obtain ⟨he, _, _⟩ := tick_some_inv dt rng s s1 ht
  rw [he]
  unfold respawn park
  rw [map_tag_of_pointwise _ _ (respEnt_tag rng s.foods),
    map_tag_of_pointwise _ _ (parkEnt_tag _),
    map_tag_of_map_frame _ _
      (show (postConseq dt s).map frame = (postUpdate dt s).map frame from
        applyAllPairs_frame dt _ _)]
  unfold postUpdate updatePhase
  rw [map_tag_of_pointwise _ _ (updEnt_tag dt s.roster s.foods s.feederId)]

theorem deadList_subset (es : List Entity) (ro : List Nat) (x : Nat)
    (h : x ∈ deadList es ro) : x ∈ ro := by
  induction ro with
  | nil => simp [deadList] at h
  | cons j ro ih =>
    rw [deadList, List.mem_append] at h
    rcases h with h | h
    · rw [mem_deadEntries es j x h]
      exact List.mem_cons_self j ro
    · exact List.mem_cons_of_mem j (ih h)

theorem tag_pred_transfer (es es2 : List Entity) (h : es.map tag = es2.map tag)
    (P : Nat × EKind → Prop) (hp : ∀ e ∈ es, P (tag e)) :
    ∀ e2 ∈ es2, P (tag e2) := by
  intro e2 he2
  have hm : tag e2 ∈ es2.map tag := List.mem_map_of_mem tag he2
  rw [← h] at hm
  obtain ⟨e, he, hte⟩ := List.mem_map.mp hm
  exact hte ▸ hp e he

theorem getEnt_unique (es : List Entity) (hnd : (es.map Entity.id).Nodup)
    (i : Nat) (c : Entity) (hg : getEnt es i = some c) :
    ∀ e ∈ es, e.id = i → e = c := by
  induction es with
  | nil => simp [getEnt] at hg
  | cons a es ih =>
    rw [List.map_cons, List.nodup_cons] at hnd
    rw [getEnt] at hg
    intro e he hei
    rcases List.mem_cons.mp he with rfl | hmem
    · rw [if_pos hei] at hg
      exact Option.some.inj hg
    · by_cases hai : a.id = i
      · exact absurd (hei ▸ List.mem_map_of_mem Entity.id hmem) (hai ▸ hnd.1)
      · rw [if_neg hai] at hg
        exact ih hnd.2 hg e hmem hei

theorem setLife_map_id (es : List Entity) (i : Nat) (l : ℚ) :
    (setLife es i l).map Entity.id = es.map Entity.id :=
  map_id_of_map_tag _ _ (map_tag_of_map_frame _ _ (setLife_frame es i l))

theorem applyPair_map_id (dt : ℚ) (es : List Entity) (pr : Nat × Nat) :
    (applyPair dt es pr).map Entity.id = es.map Entity.id :=
  map_id_of_map_tag _ _ (map_tag_of_map_frame _ _ (applyPair_frame dt es pr))

theorem getEnt_setLife (es : List Entity) (i j : Nat) (l : ℚ) :
    getEnt (setLife es i l) j =
      (getEnt es j).map (fun e => if e.id = i then { e with life := l } else e) := by
  unfold setLife
  exact getEnt_map es _ (fun e => by split_ifs <;> rfl) j

theorem setLife_foodInv_of_val (es : List Entity) (i : Nat) (l : ℚ)
    (hl : l = 0 ∨ l = 1) (h : foodInv es) : foodInv (setLife es i l) := by
  intro e he hk
  obtain ⟨a, ha, rfl⟩ := List.mem_map.mp he
  by_cases hai : a.id = i
  · rw [if_pos hai]
    exact hl
  · rw [if_neg hai] at hk
    rw [if_neg hai]
    exact h a ha hk

theorem setLife_foodInv_of_kind (es : List Entity) (i : Nat) (l : ℚ)
    (hnd : (es.map Entity.id).Nodup) (c : Entity) (hg : getEnt es i = some c)
    (hck : c.kind ≠ EKind.food) (h : foodInv es) : foodInv (setLife es i l) := by
  intro e he hk
  obtain ⟨a, ha, rfl⟩ := List.mem_map.mp he
  by_cases hai : a.id = i
  · have hac : a = c := getEnt_unique es hnd i c hg a ha hai
    rw [if_pos hai] at hk
    exact absurd (show c.kind = EKind.food from hac ▸ hk) hck
  · rw [if_neg hai] at hk
    rw [if_neg hai]
    exact h a ha hk

theorem applyPair_foodInv (dt : ℚ) (es : List Entity) (pr : Nat × Nat)
    (hnd : (es.map Entity.id).Nodup) (h : foodInv es) : foodInv (applyPair dt es pr) := by
  unfold applyPair
  rcases hg1 : getEnt es pr.1 with _ | c1 <;> rcases hg2 : getEnt es pr.2 with _ | c2 <;>
    simp only [hg1, hg2] <;> try exact h
  rcases hk1 : c1.kind <;> rcases hk2 : c2.kind <;> simp only [hk1, hk2] <;> try exact h
  · split
    · have hinner := setLife_foodInv_of_kind es pr.1 (c1.life - 2 * dt) hnd c1 hg1
        (by simp [hk1]) h
      refine setLife_foodInv_of_kind _ pr.2 (c2.life - 2 * dt)
        (by rw [setLife_map_id]; exact hnd)
        (if c2.id = pr.1 then { c2 with life := c1.life - 2 * dt } else c2)
        (by rw [getEnt_setLife, hg2]; rfl)
        (by split_ifs <;> simp [hk2]) hinner
    · exact h
  · split
    · have hinner := setLife_foodInv_of_kind es pr.1 (c1.life + c2.life) hnd c1 hg1
        (by simp [hk1]) h
      exact setLife_foodInv_of_val _ pr.2 0 (Or.inl rfl) hinner
    · exact h
  · exact setLife_foodInv_of_kind es pr.1 (c1.life + 0.1 * dt) hnd c1 hg1
      (by simp [hk1]) h
  · split
    · have hinner := setLife_foodInv_of_kind es pr.2 (c2.life + c1.life) hnd c2 hg2
        (by simp [hk2]) h
      exact setLife_foodInv_of_val _ pr.1 0 (Or.inl rfl) hinner
    · exact h
  · exact setLife_foodInv_of_kind es pr.2 (c2.life + 0.1 * dt) hnd c2 hg2
      (by simp [hk2]) h

theorem applyAllPairs_foodInv (dt : ℚ) (prs : List (Nat × Nat)) (es : List Entity)
    (hnd : (es.map Entity.id).Nodup) (h : foodInv es) :
    foodInv (applyAllPairs dt prs es) := by
  induction prs generalizing es with
  | nil => exact h
  | cons p ps ih =>
    rw [applyAllPairs, List.foldl_cons]
    exact ih (applyPair dt es p) (by rw [applyPair_map_id]; exact hnd)
      (applyPair_foodInv dt es p hnd h)

theorem updatePhase_foodInv (dt : ℚ) (ro fo : List Nat) (fid : Nat) (es : List Entity)
    (hdisj : ∀ e ∈ es, e.kind = EKind.food → e.id ∉ ro)
    (h : foodInv es) : foodInv (updatePhase dt ro fo fid es) := by
  intro e1 he1 hk
  obtain ⟨e, he, rfl⟩ := List.mem_map.mp he1
  have hke : (updEnt dt ro fo fid e).kind = e.kind :=
    congrArg Prod.snd (updEnt_tag dt ro fo fid e)
  rw [hke] at hk
  rw [updEnt_life dt ro fo fid e (hdisj e he hk)]
  exact h e he hk

theorem randPosition_inBounds (r : Nat × Nat) : inBounds (randPosition r) := by
  have h1a : (0 : ℤ) ≤ (r.1 : ℤ) % 780 := Int.emod_nonneg _ (by norm_num)
  have h1b : (r.1 : ℤ) % 780 < 780 := Int.emod_lt_of_pos _ (by norm_num)
  have h2a : (0 : ℤ) ≤ (r.2 : ℤ) % 780 := Int.emod_nonneg _ (by norm_num)
  have h2b : (r.2 : ℤ) % 780 < 780 := Int.emod_lt_of_pos _ (by norm_num)
  have q1a : ((10 : ℤ) : ℚ) ≤ ((10 + (r.1 : ℤ) % 780 : ℤ) : ℚ) := by
    exact_mod_cast (by omega : (10 : ℤ) ≤ 10 + (r.1 : ℤ) % 780)
  have q1b : ((10 + (r.1 : ℤ) % 780 : ℤ) : ℚ) ≤ ((790 : ℤ) : ℚ) := by
    exact_mod_cast (by omega : (10 : ℤ) + (r.1 : ℤ) % 780 ≤ 790)
  have q2a : ((10 : ℤ) : ℚ) ≤ ((10 + (r.2 : ℤ) % 780 : ℤ) : ℚ) := by
    exact_mod_cast (by omega : (10 : ℤ) ≤ 10 + (r.2 : ℤ) % 780)
  have q2b : ((10 + (r.2 : ℤ) % 780 : ℤ) : ℚ) ≤ ((790 : ℤ) : ℚ) := by
    exact_mod_cast (by omega : (10 : ℤ) + (r.2 : ℤ) % 780 ≤ 790)
  unfold inBounds randPosition randrange WIDTH HEIGHT
  norm_num at q1a q1b q2a q2b ⊢
  exact ⟨q1a, q1b, q2a, q2b⟩

/-- C9 (confirmed): under the well-formedness of the engine state (food
entities are exactly the pool members, disjoint from the roster and the
feeder, with distinct ids) and the binary-life invariant, one tick never
removes a food entity, keeps every food life in {0, 1} through the
consequence loop, leaves every food with life exactly 1 after the
respawn loop, and gives every food consumed this tick a fresh oracle
position inside the inset bounds with life reset to 1. -/
theorem C9_food_invariant_respawn (dt : ℚ) (rng : Nat → Nat × Nat) (s s1 : GameState)
    (hnd : (s.entities.map Entity.id).Nodup)
    (hkind : ∀ e ∈ s.entities, (e.kind = EKind.food ↔ e.id ∈ s.foods))
    (hro : ∀ i ∈ s.roster, i ∉ s.foods)
    (hlife : foodInv s.entities)
    (ht : tick dt rng s = some s1) :
    (s1.foods = s.foods ∧ s1.entities.map Entity.id = s.entities.map Entity.id) ∧
    foodInv (postConseq dt s) ∧
    (∀ e ∈ s1.entities, e.kind = EKind.food → e.life = 1) ∧
    (∀ e ∈ postConseq dt s, e.kind = EKind.food → e.life ≤ 0 →
      ∃ e1 ∈ s1.entities, e1.id = e.id ∧ e1.life = 1 ∧
        e1.pos = randPosition (rng e.id) ∧ inBounds e1.pos) := by
  obtain ⟨he, hf, _⟩ := tick_some_inv dt rng s s1 ht
  have htag1 : (postUpdate dt s).map tag = s.entities.map tag := by
    unfold postUpdate updatePhase
    exact map_tag_of_pointwise _ _ (updEnt_tag dt s.roster s.foods s.feederId)
  have htag2 : (postConseq dt s).map tag = (postUpdate dt s).map tag :=
    map_tag_of_map_frame _ _ (applyAllPairs_frame dt _ _)
  have htagS2 : (postConseq dt s).map tag = s.entities.map tag := htag2.trans htag1
  have hnd1 : ((postUpdate dt s).map Entity.id).Nodup := by
    rw [map_id_of_map_tag _ _ htag1]
    exact hnd
  have hdisj0 : ∀ e ∈ s.entities, e.kind = EKind.food → e.id ∉ s.roster :=
    fun e hee hk hr => hro e.id hr ((hkind e hee).mp hk)
  have hinv1 : foodInv (postUpdate dt s) :=
    updatePhase_foodInv dt s.roster s.foods s.feederId s.entities hdisj0 hlife
  have hinv2 : foodInv (postConseq dt s) := by
    unfold postConseq
    exact applyAllPairs_foodInv dt _ _ hnd1 hinv1
  have hkind2 : ∀ e ∈ postConseq dt s, (e.kind = EKind.food ↔ e.id ∈ s.foods) :=
    tag_pred_transfer s.entities (postConseq dt s) htagS2.symm
      (fun t => t.2 = EKind.food ↔ t.1 ∈ s.foods) hkind
  refine ⟨⟨hf, map_id_of_map_tag _ _ (tick_tag dt rng s s1 ht)⟩, hinv2, ?_, ?_⟩
  · intro e1 he1 hk
    rw [he] at he1
    obtain ⟨p, hp, rfl⟩ := List.mem_map.mp he1
    obtain ⟨a, ha, rfl⟩ := List.mem_map.mp hp
    have hk2 : (parkEnt (deadList (postConseq dt s) s.roster) a).kind = a.kind :=
      congrArg Prod.snd (parkEnt_tag _ a)
    have hk1 : (respEnt rng s.foods (parkEnt (deadList (postConseq dt s) s.roster) a)).kind
        = (parkEnt (deadList (postConseq dt s) s.roster) a).kind :=
      congrArg Prod.snd (respEnt_tag rng s.foods _)
    have hak : a.kind = EKind.food := by
      rw [hk1, hk2] at hk
      exact hk
    have hpid : (parkEnt (deadList (postConseq dt s) s.roster) a).id = a.id :=
      parkEnt_id _ a
    have hplife : (parkEnt (deadList (postConseq dt s) s.roster) a).life = a.life :=
      parkEnt_life _ a
    rcases hinv2 a ha hak with h0 | h1
    · have hcond : (parkEnt (deadList (postConseq dt s) s.roster) a).id ∈ s.foods ∧
          (parkEnt (deadList (postConseq dt s) s.roster) a).life ≤ 0 := by
        rw [hpid, hplife, h0]
        exact ⟨(hkind2 a ha).mp hak, le_refl 0⟩
      unfold respEnt
      rw [if_pos hcond]
    · have hcond : ¬((parkEnt (deadList (postConseq dt s) s.roster) a).id ∈ s.foods ∧
          (parkEnt (deadList (postConseq dt s) s.roster) a).life ≤ 0) := by
        rw [hpid, hplife, h1]
        rintro ⟨_, hle⟩
        norm_num at hle
      unfold respEnt
      rw [if_neg hcond, hplife, h1]
  · intro e hee hk hle
    have hmemf : e.id ∈ s.foods := (hkind2 e hee).mp hk
    have hnr : e.id ∉ s.roster := fun hmem => hro e.id hmem hmemf
    have hnd3 : e.id ∉ deadList (postConseq dt s) s.roster :=
      fun hmem => hnr (deadList_subset _ _ _ hmem)
    have hpark : parkEnt (deadList (postConseq dt s) s.roster) e = e :=
      parkEnt_not_dead _ e hnd3
    refine ⟨respEnt rng s.foods e, ?_, ?_⟩
    · rw [he]
      unfold respawn park
      have hm1 : parkEnt (deadList (postConseq dt s) s.roster) e ∈
          (postConseq dt s).map (parkEnt (deadList (postConseq dt s) s.roster)) :=
        List.mem_map_of_mem _ hee
      rw [hpark] at hm1
      exact List.mem_map_of_mem _ hm1
    · unfold respEnt
      rw [if_pos ⟨hmemf, hle⟩]
      exact ⟨rfl, rfl, rfl, randPosition_inBounds (rng e.id)⟩

/-- C9 witness: a consumed pellet away from every player is respawned by
the next tick at the oracle position (10, 10) with life 1, the pool and
the collision-manager contents unchanged. -/
theorem C9_witness :
    (feedStateAfter.foods = feedState.foods ∧
      feedStateAfter.entities.map Entity.id = feedState.entities.map Entity.id) ∧
    foodInv (postConseq 1 feedState) ∧
    (∀ e ∈ feedStateAfter.entities, e.kind = EKind.food → e.life = 1) ∧
    (∀ e ∈ postConseq 1 feedState, e.kind = EKind.food → e.life ≤ 0 →
      ∃ e1 ∈ feedStateAfter.entities, e1.id = e.id ∧ e1.life = 1 ∧
        e1.pos = randPosition (rng0 e.id) ∧ inBounds e1.pos) :=
  C9_food_invariant_respawn 1 rng0 feedState feedStateAfter
    (by simp [feedState, feederEnt, foodSpent])
    (by
      intro e he
      simp only [feedState, List.mem_cons, List.mem_singleton,
        List.not_mem_nil, or_false] at he
      rcases he with rfl | rfl
      · simp [feederEnt, feedState]
      · simp [foodSpent, feedState])
    (by simp [feedState])
    (by
      intro e he hk
      simp only [feedState, List.mem_cons, List.mem_singleton,
        List.not_mem_nil, or_false] at he
      rcases he with rfl | rfl
      · simp [feederEnt] at hk
      · simp [foodSpent])
    (by
      norm_num [tick, postConseq, postUpdate, updatePhase, updEnt, baseUpdate,
        playerUpdate, feedState, feedStateAfter, feederEnt, foodSpent, overlaps, getEnt,
        List.filter, collisionPairs, applyAllPairs, applyPair, fabs, setLife, deadEntries,
        deadList, oob, removeFirst, prune, park, parkEnt, respawn, respEnt, randPosition,
        randrange, rng0, WIDTH, HEIGHT])

/-- C6 (confirmed): a dead player is pruned from the roster only, never
from the collision manager; its update method is no longer called, so
its collision shape stays frozen where it died while the entity itself
survives every later tick unchanged apart from life. Concretely, in
deadState the dead player (frozen shape at (405, 400), parked position
(-100, -100)) still collides: during the next tick it gains the feeder
bonus 0.1 and consumes the pellet (life -1/2 + 0.1 + 1 = 3/5), the
pellet drops to life 0 in the consequence phase and is respawned, and
the frozen shape is still (405, 400) afterwards. -/
theorem C6_dead_stay_in_collision_index :
    (∀ (dt : ℚ) (rng : Nat → Nat × Nat) (s s1 : GameState) (i : Nat) (e : Entity),
      tick dt rng s = some s1 → i ∉ s.roster → i ∉ s.foods → i ≠ s.feederId →
      getEnt s.entities i = some e →
      s1.entities.map Entity.id = s.entities.map Entity.id ∧
      ∃ e1, getEnt s1.entities i = some e1 ∧ e1.cshape = e.cshape ∧
        e1.pos = e.pos ∧ e1.kind = e.kind) ∧
    (lifeIn (postConseq 1 deadState) 1 = some (3 / 5) ∧
     lifeIn (postConseq 1 deadState) 2 = some 0 ∧
     (tick 1 rng0 deadState).bind (fun s1 => lifeIn s1.entities 2) = some 1 ∧
     (tick 1 rng0 deadState).bind (fun s1 => (getEnt s1.entities 1).map Entity.cshape)
       = some (405, 400)) := by
  constructor
  · intro dt rng s s1 i e ht hnr hnf hnfid hg
    obtain ⟨he, _, _⟩ := tick_some_inv dt rng s s1 ht
    refine ⟨map_id_of_map_tag _ _ (tick_tag dt rng s s1 ht), ?_⟩
    have hid := getEnt_id s.entities i e hg
    have hg1 : getEnt (postUpdate dt s) i = some e := by
      unfold postUpdate updatePhase
      rw [getEnt_map _ _ (updEnt_id dt s.roster s.foods s.feederId) i, hg]
      show some (updEnt dt s.roster s.foods s.feederId e) = some e
      rw [updEnt_not_involved dt s.roster s.foods s.feederId e
        (by rw [hid]; exact hnr) (by rw [hid]; exact hnf) (by rw [hid]; exact hnfid)]
    obtain ⟨e2, hg2, hfr⟩ := getEnt_frame_eq (postUpdate dt s) (postConseq dt s)
      (by
        unfold postConseq
        exact (applyAllPairs_frame dt _ _).symm) i e hg1
    have hid2 := getEnt_id _ i e2 hg2
    have hdead : i ∉ deadList (postConseq dt s) s.roster :=
      fun hmem => hnr (deadList_subset _ _ i hmem)
    have hg3 : getEnt s1.entities i = some e2 := by
      rw [he]
      unfold respawn park
      rw [getEnt_map _ _ (respEnt_id rng s.foods) i,
        getEnt_map _ _ (parkEnt_id (deadList (postConseq dt s) s.roster)) i, hg2]
      show some (respEnt rng s.foods
        (parkEnt (deadList (postConseq dt s) s.roster) e2)) = some e2
      rw [parkEnt_not_dead _ e2 (by rw [hid2]; exact hdead),
        respEnt_not_food rng s.foods e2 (by rw [hid2]; exact hnf)]
    exact ⟨e2, hg3, congrArg (fun t => t.2.2.2.1) hfr,
      congrArg (fun t => t.2.2.1) hfr, congrArg (fun t => t.2.1) hfr⟩
  · refine ⟨?_, ?_, ?_, ?_⟩ <;>
      norm_num [tick, postConseq, postUpdate, updatePhase, updEnt, baseUpdate,
        playerUpdate, deadState, feederEnt, deadPlayer, foodOne, overlaps, getEnt,
        List.filter, collisionPairs, applyAllPairs, applyPair, fabs, setLife, deadEntries,
        deadList, oob, removeFirst, prune, park, parkEnt, respawn, respEnt, randPosition,
        randrange, rng0, lifeIn, WIDTH, HEIGHT]

/-- C6 witness: the general preservation statement applied to deadState:
the dead player survives the tick inside the collision manager with its
shape still frozen at (405, 400). -/
theorem C6_witness :
    deadStateAfter.entities.map Entity.id = deadState.entities.map Entity.id ∧
    ∃ e1, getEnt deadStateAfter.entities 1 = some e1 ∧
      e1.cshape = deadPlayer.cshape ∧ e1.pos = deadPlayer.pos ∧
      e1.kind = deadPlayer.kind :=
  C6_dead_stay_in_collision_index.1 1 rng0 deadState deadStateAfter 1 deadPlayer
    (by
      norm_num [tick, postConseq, postUpdate, updatePhase, updEnt, baseUpdate,
        playerUpdate, deadState, deadStateAfter, feederEnt, deadPlayer, foodOne, overlaps,
        getEnt, List.filter, collisionPairs, applyAllPairs, applyPair, fabs, setLife,
        deadEntries, deadList, oob, removeFirst, prune, park, parkEnt, respawn, respEnt,
        randPosition, randrange, rng0, WIDTH, HEIGHT])
    (by simp [deadState])
    (by simp [deadState])
    (by simp [deadState])
    (by norm_num [getEnt, deadState, feederEnt, deadPlayer])

end Ants

